import Mathlib

/-!
Shallow embedding of `src/utils/config.js`: the discovery-and-validation
pipeline (identifier extraction from a Google Sheets URL, row scanning of the
Commander Database grid, record construction, and strict record validation).

Cell values fetched from the tabular source are modelled as `String`s; an
absent cell (a row shorter than 13 entries) reads as `""`, which coincides
with JavaScript falsiness for the only observations the code makes of a cell
(the `!x` truthiness test, which is true exactly for `undefined` and `""`
among the values that can appear here).
-/

/-! ### Character classes (ASCII, as in the source regexes) -/

/-- `a`–`z`, as matched by the regex class `[a-z]`. -/
def isLowerAZ (c : Char) : Bool :=
  decide (97 ≤ c.toNat) && decide (c.toNat ≤ 122)

/-- `A`–`Z`, as matched by the regex class `[A-Z]`. -/
def isUpperAZ (c : Char) : Bool :=
  decide (65 ≤ c.toNat) && decide (c.toNat ≤ 90)

/-- `0`–`9`, as matched by the regex class `[0-9]`. -/
def isDigit09 (c : Char) : Bool :=
  decide (48 ≤ c.toNat) && decide (c.toNat ≤ 57)

/-- `1`–`9`, as matched by the regex class `[1-9]`. -/
def isDigit19 (c : Char) : Bool :=
  decide (49 ≤ c.toNat) && decide (c.toNat ≤ 57)

/-- A character of the capture class `[a-zA-Z0-9-_]` in the sheet-id regex of
`parseSheetIdFromUrl`. -/
def isIdChar (c : Char) : Bool :=
  isLowerAZ c || isUpperAZ c || isDigit09 c || c == '-' || c == '_'

/-! ### Identifier extraction: `parseSheetIdFromUrl` (config.js lines 9–22)

The source runs `url.match(/\/spreadsheets\/d\/([a-zA-Z0-9-_]+)/)`.  The
regex is a fixed literal segment followed by a greedy nonempty run of id
characters, so JavaScript's leftmost-match search is modelled exactly by
scanning start positions left to right (`findMatch`) and, at each position,
checking the literal and taking the maximal id-character run after it
(`matchAt`). -/

/-- The literal part of the pattern, `/spreadsheets/d/`. -/
def patList : List Char := "/spreadsheets/d/".toList

/-- `beginsWith p l` holds when `l` starts with the segment `p`
(the anchored literal test the regex performs at one start position). -/
def beginsWith : List Char → List Char → Bool
  | [], _ => true
  | _ :: _, [] => false
  | p :: ps, c :: cs => p == c && beginsWith ps cs

/-- One attempt of the regex at the current start position: the literal
`/spreadsheets/d/` must be present and must be followed by at least one
`[a-zA-Z0-9-_]` character; the capture is the maximal (greedy `+`) run of
such characters. -/
def matchAt (cs : List Char) : Option (List Char) :=
  if beginsWith patList cs then
    let idrun := (cs.drop patList.length).takeWhile isIdChar
    if idrun = [] then none else some idrun
  else none

/-- Leftmost-match search of the regex: try each start position in order. -/
def findMatch : List Char → Option (List Char)
  | [] => none
  | c :: cs =>
    match matchAt (c :: cs) with
    | some idrun => some idrun
    | none => findMatch cs

/-- Embedding of `parseSheetIdFromUrl` (config.js lines 9–22): on a match the
capture group is returned; otherwise the function throws
`Invalid Google Sheets URL: ${url}`.  (`match[1]` is nonempty whenever the
regex matches, because the group is `(...)+`.) -/
def parseSheetIdFromUrl (url : String) : Except String String :=
  match findMatch url.toList with
  | some idrun => Except.ok (String.mk idrun)
  | none => Except.error ("Invalid Google Sheets URL: " ++ url)

/-- Whether a list starts with an `[a-zA-Z0-9-_]` character. -/
def headIsId : List Char → Bool
  | [] => false
  | c :: _ => isIdChar c

/-- Position `j` of `cs` qualifies when the literal `/spreadsheets/d/` occurs
at `j` and is immediately followed by at least one `[a-zA-Z0-9-_]` character —
i.e. the regex of `parseSheetIdFromUrl` can match starting at `j`. -/
def qualifiesAt (cs : List Char) (j : Nat) : Bool :=
  beginsWith patList (cs.drop j) && headIsId ((cs.drop j).drop patList.length)

/-- The maximal run of `[a-zA-Z0-9-_]` characters immediately following the
occurrence of `/spreadsheets/d/` at position `j`. -/
def extractAt (cs : List Char) (j : Nat) : List Char :=
  ((cs.drop j).drop patList.length).takeWhile isIdChar

/-! ### JavaScript string helpers used by the discovery loop -/

/-- The characters stripped by JavaScript `String.prototype.trim`
(ECMAScript WhiteSpace and LineTerminator code points). -/
def isJsWhitespace (c : Char) : Bool :=
  decide (c.toNat = 9) || decide (c.toNat = 10) || decide (c.toNat = 11) ||
  decide (c.toNat = 12) || decide (c.toNat = 13) || decide (c.toNat = 32) ||
  decide (c.toNat = 160) || decide (c.toNat = 5760) ||
  (decide (8192 ≤ c.toNat) && decide (c.toNat ≤ 8202)) ||
  decide (c.toNat = 8232) || decide (c.toNat = 8233) ||
  decide (c.toNat = 8239) || decide (c.toNat = 8287) ||
  decide (c.toNat = 12288) || decide (c.toNat = 65279)

/-- JavaScript `s.trim()`: strip leading and trailing whitespace. -/
def jsTrim (s : String) : String :=
  String.mk (((s.toList.dropWhile isJsWhitespace).reverse.dropWhile
    isJsWhitespace).reverse)

/-! ### Data model -/

/-- A raw row of the Commander Database grid: cell values at fixed column
positions (position 0 = name, 2 = sheet URL, 12 = webhook URL).  A row may be
shorter than 13 cells; reading past its end yields the absent value. -/
abbrev RawRow := List String

/-- Reading `row[i]` in the source: the cell at position `i`, or the absent
value (modelled as `""`, the JS-falsy string) when the row is shorter. -/
def cell (row : RawRow) (i : Nat) : String :=
  row.getD i ""

/-- The configuration object pushed by the discovery loop
(config.js lines 86–93). -/
structure ConfigRecord where
  name : String
  sheetId : String
  sheetName : String
  webhookUrl : String
  currentSuppliesCell : String
  dailyConsumptionCell : String
deriving DecidableEq

/-! ### The discovery loop (config.js lines 60–99) -/

/-- The row scan of `loadConfig` (config.js lines 60–99): for each row read
positions 0, 2 and 12; skip the row if any is absent/empty (JS falsy); skip
the row if `parseSheetIdFromUrl` throws; otherwise push a record built from
the trimmed name, the extracted sheet id, the trimmed webhook URL and the
fixed constants `"Sheet1"`, `"C9"`, `"C11"`. -/
def scanRows : List RawRow → List ConfigRecord
  | [] => []
  | row :: rest =>
    if cell row 0 = "" ∨ cell row 2 = "" ∨ cell row 12 = "" then
      scanRows rest
    else
      match parseSheetIdFromUrl (cell row 2) with
      | Except.error _ => scanRows rest
      | Except.ok sheetId =>
        { name := jsTrim (cell row 0)
          sheetId := sheetId
          sheetName := "Sheet1"
          webhookUrl := jsTrim (cell row 12)
          currentSuppliesCell := "C9"
          dailyConsumptionCell := "C11" } :: scanRows rest

/-- Whether `parseSheetIdFromUrl` succeeds on `s`. -/
def parseOk (s : String) : Bool :=
  match parseSheetIdFromUrl s with
  | Except.ok _ => true
  | Except.error _ => false

/-- The extracted sheet id on success (and `""` on failure, never used on
failing inputs). -/
def extractId (s : String) : String :=
  match parseSheetIdFromUrl s with
  | Except.ok idrun => idrun
  | Except.error _ => ""

/-- A row survives the scan exactly when its three required cells are
nonempty and the sheet URL parses. -/
def validRowB (row : RawRow) : Bool :=
  !(cell row 0 == "") && !(cell row 2 == "") &&
  !(cell row 12 == "") && parseOk (cell row 2)

/-- The record the scan builds for a surviving row. -/
def recordOfValidRow (row : RawRow) : ConfigRecord :=
  { name := jsTrim (cell row 0)
    sheetId := extractId (cell row 2)
    sheetName := "Sheet1"
    webhookUrl := jsTrim (cell row 12)
    currentSuppliesCell := "C9"
    dailyConsumptionCell := "C11" }

/-! ### URL syntax check used by the validator

The source runs `new URL(sheetConfig.webhookUrl)` and treats a throw as
"invalid webhook URL".  The WHATWG URL parser is a host-platform facility,
not code of this repository. -/

/-- A character allowed after the first one in a URL scheme. -/
def isSchemeChar (c : Char) : Bool :=
  isLowerAZ c || isUpperAZ c || isDigit09 c || c == '+' || c == '-' || c == '.'

/-- Modelled from the spec: the validator requires that the notification
endpoint "parses as a syntactically valid URL (scheme + structure, not
reachability)".  The host URL constructor called by the source is not part of
the repository; this model accepts exactly the strings that begin with a URL
scheme — an ASCII letter followed by letters, digits, `+`, `-` or `.` — and
a colon, the common core of the WHATWG grammar for the absolute URLs this
pipeline handles. -/
def jsUrlParses (s : String) : Bool :=
  match s.toList with
  | [] => false
  | c :: rest =>
    (isLowerAZ c || isUpperAZ c) &&
    (match rest.dropWhile isSchemeChar with
     | ':' :: _ => true
     | _ => false)

/-! ### Cell-address grammar: `isValidCellAddress` (config.js lines 175–178)

The source tests `/^[A-Z]+[1-9][0-9]*$/`.  The classes `[A-Z]` and `[1-9]`
are disjoint, so the greedy `+` is deterministic: the letters are exactly the
maximal leading run of `A`–`Z`, which must be nonempty and be followed by one
`1`–`9` digit and then only `0`–`9` digits to the end. -/

/-- Embedding of `isValidCellAddress` (config.js lines 175–178). -/
def isValidCellAddress (s : String) : Bool :=
  match s.toList.takeWhile isUpperAZ, s.toList.dropWhile isUpperAZ with
  | [], _ => false
  | _ :: _, [] => false
  | _ :: _, d :: ds => isDigit19 d && ds.all isDigit09

/-! ### Errors thrown by the pipeline

The source throws plain `Error`s; the distinct fatal conditions are modelled
as constructors of one inductive, and `ConfigError.message` reproduces the
exact message string each `throw new Error(...)` builds. -/

/-- The fatal error conditions of `loadConfig`/`validateConfig`. -/
inductive ConfigError where
  | missingEnv : ConfigError
  | emptySource : ConfigError
  | noValidRecords : ConfigError
  | emptyConfig : ConfigError
  | missingField : Nat → String → ConfigError
  | invalidWebhookUrl : Nat → String → ConfigError
  | invalidCurrentSuppliesCell : Nat → String → ConfigError
  | invalidDailyConsumptionCell : Nat → String → ConfigError
deriving DecidableEq

/-- The message carried by each thrown `Error` in the source. -/
def ConfigError.message : ConfigError → String
  | ConfigError.missingEnv =>
    "DATABASE_SHEET_ID environment variable is required"
  | ConfigError.emptySource =>
    "No commander data found in Commander Database sheet"
  | ConfigError.noValidRecords =>
    "No valid commander configurations found in Commander Database sheet"
  | ConfigError.emptyConfig =>
    "Configuration must contain at least one sheet configuration"
  | ConfigError.missingField i f =>
    "Sheet configuration " ++ toString i ++ " is missing required field: " ++ f
  | ConfigError.invalidWebhookUrl i u =>
    "Sheet configuration " ++ toString i ++ " has invalid webhook URL: " ++ u
  | ConfigError.invalidCurrentSuppliesCell i v =>
    "Sheet configuration " ++ toString i ++ " has invalid currentSuppliesCell: "
      ++ v
  | ConfigError.invalidDailyConsumptionCell i v =>
    "Sheet configuration " ++ toString i
      ++ " has invalid dailyConsumptionCell: " ++ v

/-! ### The validator: `validateConfig` (config.js lines 121–173) -/

/-- The per-record body of `config.forEach` in `validateConfig`
(config.js lines 132–170): the five required fields are tested for JS
truthiness in the order of the `requiredFields` array, then the webhook URL
must parse, then the two cell addresses must match the grammar; the first
failing check throws. -/
def checkRecord (i : Nat) (r : ConfigRecord) : Except ConfigError Unit :=
  if r.name == "" then
    Except.error (ConfigError.missingField i "name")
  else if r.sheetId == "" then
    Except.error (ConfigError.missingField i "sheetId")
  else if r.webhookUrl == "" then
    Except.error (ConfigError.missingField i "webhookUrl")
  else if r.currentSuppliesCell == "" then
    Except.error (ConfigError.missingField i "currentSuppliesCell")
  else if r.dailyConsumptionCell == "" then
    Except.error (ConfigError.missingField i "dailyConsumptionCell")
  else if !jsUrlParses r.webhookUrl then
    Except.error (ConfigError.invalidWebhookUrl i r.webhookUrl)
  else if !isValidCellAddress r.currentSuppliesCell then
    Except.error (ConfigError.invalidCurrentSuppliesCell i
      r.currentSuppliesCell)
  else if !isValidCellAddress r.dailyConsumptionCell then
    Except.error (ConfigError.invalidDailyConsumptionCell i
      r.dailyConsumptionCell)
  else
    Except.ok ()

/-- `config.forEach((sheetConfig, index) => ...)`: records are checked in
index order and the first throw aborts the whole walk. -/
def validateLoop : Nat → List ConfigRecord → Except ConfigError Unit
  | _, [] => Except.ok ()
  | i, r :: rs =>
    match checkRecord i r with
    | Except.error e => Except.error e
    | Except.ok _ => validateLoop (i + 1) rs

/-- Embedding of `validateConfig` (config.js lines 121–173).  The
`Array.isArray` guard of the source cannot fail here because the input is a
`List` by type; the empty-set guard and the per-record walk follow it. -/
def validateConfig (config : List ConfigRecord) : Except ConfigError Unit :=
  if config = [] then Except.error ConfigError.emptyConfig
  else validateLoop 0 config

/-- All checks the validator makes of one record, as one conjunction. -/
def recordPassesB (r : ConfigRecord) : Bool :=
  !(r.name == "") && !(r.sheetId == "") && !(r.webhookUrl == "") &&
  !(r.currentSuppliesCell == "") && !(r.dailyConsumptionCell == "") &&
  jsUrlParses r.webhookUrl && isValidCellAddress r.currentSuppliesCell &&
  isValidCellAddress r.dailyConsumptionCell

/-! ### Spec-side restatement of the validator, for the fail-fast claim

The claim states an order of checks; `specValidateOutcome` lays that order
out literally as a flat schedule of (check, error) pairs — record by record
in index order, per record the five field checks, then the endpoint check,
then the two cell checks — and fails with the error of the first failing
check.  It is written from the claim's words, to be compared with
`validateConfig`, which is written from the source. -/

/-- The claimed checks for one record, in the claimed order; each pair is
(the check passes, the error reported when it is the first failure). -/
def recordCheckList (i : Nat) (r : ConfigRecord) :
    List (Bool × ConfigError) :=
  [ (!(r.name == ""), ConfigError.missingField i "name"),
    (!(r.sheetId == ""), ConfigError.missingField i "sheetId"),
    (!(r.webhookUrl == ""), ConfigError.missingField i "webhookUrl"),
    (!(r.currentSuppliesCell == ""),
      ConfigError.missingField i "currentSuppliesCell"),
    (!(r.dailyConsumptionCell == ""),
      ConfigError.missingField i "dailyConsumptionCell"),
    (jsUrlParses r.webhookUrl, ConfigError.invalidWebhookUrl i r.webhookUrl),
    (isValidCellAddress r.currentSuppliesCell,
      ConfigError.invalidCurrentSuppliesCell i r.currentSuppliesCell),
    (isValidCellAddress r.dailyConsumptionCell,
      ConfigError.invalidDailyConsumptionCell i r.dailyConsumptionCell) ]

/-- The error of the first failing check in a flat schedule. -/
def firstViolation : List (Bool × ConfigError) → Option ConfigError
  | [] => none
  | (ok, e) :: rest => if ok then firstViolation rest else some e

/-- Number the records with their indices, starting at `i`. -/
def withIdx (i : Nat) : List ConfigRecord → List (Nat × ConfigRecord)
  | [] => []
  | r :: rs => (i, r) :: withIdx (i + 1) rs

/-- The flat schedule of all checks of all records, in the claimed order. -/
def checksFor : List (Nat × ConfigRecord) → List (Bool × ConfigError)
  | [] => []
  | (i, r) :: rest => recordCheckList i r ++ checksFor rest

/-- The validator outcome as the claim describes it: reject empty input,
otherwise report the first violation of the flat check schedule, and accept
when there is none. -/
def specValidateOutcome (cfg : List ConfigRecord) : Except ConfigError Unit :=
  if cfg = [] then Except.error ConfigError.emptyConfig
  else
    match firstViolation (checksFor (withIdx 0 cfg)) with
    | some e => Except.error e
    | none => Except.ok ()

/-! ### State-threaded rendering of the validator

JavaScript passes the record array by reference, so mutation inside
`validateConfig` would be visible to the caller.  `validateLoopSt` threads
the array through the walk explicitly, returning it alongside the outcome;
every step of the source only reads record fields, so the returned array is
the input array. -/

/-- The per-record walk with the record array threaded as state. -/
def validateLoopSt (i : Nat) :
    List ConfigRecord → Except ConfigError Unit × List ConfigRecord
  | [] => (Except.ok (), [])
  | r :: rs =>
    match checkRecord i r with
    | Except.error e => (Except.error e, r :: rs)
    | Except.ok _ =>
      let p := validateLoopSt (i + 1) rs
      (p.1, r :: p.2)

/-- `validateConfig` with the record array threaded as explicit state. -/
def validateConfigSt (config : List ConfigRecord) :
    Except ConfigError Unit × List ConfigRecord :=
  if config = [] then (Except.error ConfigError.emptyConfig, config)
  else
    let p := validateLoopSt 0 config
    (p.1, p.2)

/-! ### The pipeline: `loadConfig` (config.js lines 28–119)

The asynchronous fetch is the one suspension point; its result (the raw
grid, or an absent value) is passed in as a parameter, as is the
`DATABASE_SHEET_ID` environment value. -/

/-- The part of `loadConfig` from the fetched rows onward
(config.js lines 53–114): empty/absent grid check, the row scan,
the zero-survivors check, then `validateConfig` on the survivors. -/
def loadConfigFromRows (rows : Option (List RawRow)) :
    Except ConfigError (List ConfigRecord) :=
  match rows with
  | none => Except.error ConfigError.emptySource
  | some rs =>
    if rs.length = 0 then Except.error ConfigError.emptySource
    else
      let config := scanRows rs
      if config.length = 0 then Except.error ConfigError.noValidRecords
      else
        match validateConfig config with
        | Except.error e => Except.error e
        | Except.ok _ => Except.ok config

/-- The body of `loadConfig`'s `try` block: the `DATABASE_SHEET_ID` guard
(absent or empty is JS-falsy) followed by the rest of the pipeline. -/
def loadConfigInner (env : Option String) (rows : Option (List RawRow)) :
    Except ConfigError (List ConfigRecord) :=
  if env.getD "" = "" then Except.error ConfigError.missingEnv
  else loadConfigFromRows rows

/-- Embedding of `loadConfig` (config.js lines 28–119): any error escaping
the `try` block is rethrown as
`Configuration loading failed: ${error.message}`. -/
def loadConfig (env : Option String) (rows : Option (List RawRow)) :
    Except String (List ConfigRecord) :=
  match loadConfigInner env rows with
  | Except.ok cfg => Except.ok cfg
  | Except.error e =>
    Except.error ("Configuration loading failed: " ++ ConfigError.message e)

/-! ### Concrete inputs used by the witnesses -/

/-- A fully valid database row (13 cells, positions 0/2/12 filled). -/
def validRow1 : RawRow :=
  ["Saraian 1st Army", "",
   "https://docs.google.com/spreadsheets/d/1AbCdEfG/edit",
   "", "", "", "", "", "", "", "", "",
   "https://discord.com/api/webhooks/123/abc"]

/-- A second fully valid database row. -/
def validRow2 : RawRow :=
  ["Keltic Raiders", "",
   "https://docs.google.com/spreadsheets/d/1ZyXwVu",
   "", "", "", "", "", "", "", "", "",
   "https://discord.com/api/webhooks/456/def"]

/-- A row whose name cell is a single space: JS-truthy but whitespace-only. -/
def wsNameRow : RawRow :=
  [" ", "", "https://docs.google.com/spreadsheets/d/abc",
   "", "", "", "", "", "", "", "", "",
   "http://w.example"]

/-- A well-formed configuration record. -/
def sampleRecord : ConfigRecord :=
  { name := "Saraian 1st Army"
    sheetId := "1AbCdEfG"
    sheetName := "Sheet1"
    webhookUrl := "https://discord.com/api/webhooks/123/abc"
    currentSuppliesCell := "C9"
    dailyConsumptionCell := "C11" }

deriving instance DecidableEq for Except

/-! ### Lemmas about the regex scan of `parseSheetIdFromUrl` -/

/-- `beginsWith` decides the "starts with" relation. -/
theorem beginsWith_iff : ∀ (ps cs : List Char),
    beginsWith ps cs = true ↔ ∃ t, cs = ps ++ t
  | [], cs => by simp [beginsWith]
  | p :: ps, [] => by simp [beginsWith]
  | p :: ps, c :: cs => by
    simp only [beginsWith, Bool.and_eq_true, beq_iff_eq,
      beginsWith_iff ps cs, List.cons_append, List.cons.injEq]
    constructor
    · rintro ⟨rfl, t, rfl⟩
      exact ⟨t, rfl, rfl⟩
    · rintro ⟨t, rfl, rfl⟩
      exact ⟨rfl, t, rfl⟩

/-- At a qualifying position the single-position matcher captures the
maximal id-character run. -/
theorem matchAt_eq_some_of (cs : List Char) (h : qualifiesAt cs 0 = true) :
    matchAt cs = some (extractAt cs 0) := by
  unfold qualifiesAt at h
  rw [List.drop_zero, Bool.and_eq_true] at h
  obtain ⟨h1, h2⟩ := h
  unfold matchAt extractAt
  rw [List.drop_zero, if_pos h1]
  cases hd : cs.drop patList.length with
  | nil =>
    rw [hd] at h2
    simp [headIsId] at h2
  | cons c rest =>
    rw [hd] at h2
    simp only [headIsId] at h2
    simp [List.takeWhile_cons, h2]

/-- At a non-qualifying position the single-position matcher fails. -/
theorem matchAt_eq_none_of (cs : List Char) (h : qualifiesAt cs 0 = false) :
    matchAt cs = none := by
  unfold qualifiesAt at h
  rw [List.drop_zero] at h
  unfold matchAt
  cases hb : beginsWith patList cs with
  | false => simp
  | true =>
    rw [hb, Bool.true_and] at h
    rw [if_pos rfl]
    cases hd : cs.drop patList.length with
    | nil => simp
    | cons c rest =>
      rw [hd] at h
      simp only [headIsId] at h
      simp [List.takeWhile_cons, h]

/-- Qualification is impossible in the empty list. -/
theorem qualifiesAt_nil (j : Nat) : qualifiesAt [] j = false := by
  unfold qualifiesAt
  rw [List.drop_nil]
  rw [show beginsWith patList [] = false from by decide]
  simp

/-- Shifting the start position over the head of the list. -/
theorem qualifiesAt_cons_succ (c : Char) (cs : List Char) (j : Nat) :
    qualifiesAt (c :: cs) (j + 1) = qualifiesAt cs j := by
  unfold qualifiesAt
  rw [List.drop_succ_cons]

/-- Shifting the extraction position over the head of the list. -/
theorem extractAt_cons_succ (c : Char) (cs : List Char) (j : Nat) :
    extractAt (c :: cs) (j + 1) = extractAt cs j := by
  unfold extractAt
  rw [List.drop_succ_cons]

/-- Leftmost-match search: if position `j` qualifies and no earlier
position does, the scan captures the run at `j`. -/
theorem findMatch_first : ∀ (j : Nat) (cs : List Char),
    qualifiesAt cs j = true → (∀ i, i < j → qualifiesAt cs i = false) →
    findMatch cs = some (extractAt cs j)
  | 0, [], h, _ => by rw [qualifiesAt_nil] at h; cases h
  | 0, c :: cs, h, _ => by
    simp [findMatch, matchAt_eq_some_of (c :: cs) h]
  | j + 1, [], h, _ => by rw [qualifiesAt_nil] at h; cases h
  | j + 1, c :: cs, h, hmin => by
    have h0 : qualifiesAt (c :: cs) 0 = false := hmin 0 (Nat.succ_pos j)
    rw [qualifiesAt_cons_succ] at h
    have hmin' : ∀ i, i < j → qualifiesAt cs i = false := fun i hi => by
      have := hmin (i + 1) (Nat.succ_lt_succ hi)
      rwa [qualifiesAt_cons_succ] at this
    rw [extractAt_cons_succ]
    simp [findMatch, matchAt_eq_none_of (c :: cs) h0,
      findMatch_first j cs h hmin']

/-- If no position qualifies, the scan fails.  (Positions at or past the end
of the list never qualify, so bounding the quantifier loses nothing and
keeps the hypothesis decidable.) -/
theorem findMatch_none : ∀ (cs : List Char),
    (∀ j, j < cs.length → qualifiesAt cs j = false) → findMatch cs = none
  | [], _ => rfl
  | c :: cs, h => by
    have h0 : qualifiesAt (c :: cs) 0 = false := h 0 (Nat.succ_pos _)
    have hrest : ∀ j, j < cs.length → qualifiesAt cs j = false := fun j hj => by
      have := h (j + 1) (by simpa using Nat.succ_lt_succ hj)
      rwa [qualifiesAt_cons_succ] at this
    simp [findMatch, matchAt_eq_none_of (c :: cs) h0, findMatch_none cs hrest]

/-- A successful scan means some position qualifies. -/
theorem findMatch_some_qualifies : ∀ (cs r : List Char),
    findMatch cs = some r → ∃ j, qualifiesAt cs j = true
  | [], r, h => by cases h
  | c :: cs, r, h => by
    cases hq : qualifiesAt (c :: cs) 0 with
    | true => exact ⟨0, hq⟩
    | false =>
      rw [show findMatch (c :: cs) = findMatch cs by
        simp [findMatch, matchAt_eq_none_of (c :: cs) hq]] at h
      obtain ⟨j, hj⟩ := findMatch_some_qualifies cs r h
      exact ⟨j + 1, by rwa [qualifiesAt_cons_succ]⟩

/-- A whitespace-only list contains no occurrence of the URL pattern,
because `/` is not whitespace. -/
theorem findMatch_whitespace_none (cs : List Char)
    (h : ∀ c ∈ cs, isJsWhitespace c = true) : findMatch cs = none := by
  cases hf : findMatch cs with
  | none => rfl
  | some r =>
    obtain ⟨j, hq⟩ := findMatch_some_qualifies cs r hf
    unfold qualifiesAt at hq
    rw [Bool.and_eq_true] at hq
    have hb : beginsWith patList (cs.drop j) = true := hq.1
    obtain ⟨t, ht⟩ := (beginsWith_iff patList (cs.drop j)).mp hb
    have hmem : '/' ∈ cs := by
      apply List.drop_subset j cs
      rw [ht]
      exact List.mem_append_left t (by decide)
    have := h '/' hmem
    exact absurd this (by decide)

/-- C1.  For every string in which the literal segment `/spreadsheets/d/`
occurs followed immediately by at least one `[A-Za-z0-9-_]` character
(`qualifiesAt` at the leftmost such position `j`), `parseSheetIdFromUrl`
returns exactly the maximal run of `[A-Za-z0-9-_]` characters following that
segment (`extractAt`, a `takeWhile` of the id class, hence maximal); for
every string with no such occurrence, it fails with the
`Invalid Google Sheets URL: <url>` error, which carries the offending URL. -/
theorem parseSheetIdFromUrl_correct (s : String) :
    (∀ j, qualifiesAt s.toList j = true →
      (∀ i, i < j → qualifiesAt s.toList i = false) →
      parseSheetIdFromUrl s = Except.ok (String.mk (extractAt s.toList j)))
    ∧ ((∀ j, j < s.toList.length → qualifiesAt s.toList j = false) →
      parseSheetIdFromUrl s =
        Except.error ("Invalid Google Sheets URL: " ++ s)) := by
  constructor
  · intro j hq hmin
    unfold parseSheetIdFromUrl
    rw [findMatch_first j s.toList hq hmin]
  · intro hall
    unfold parseSheetIdFromUrl
    rw [findMatch_none s.toList hall]

/-- C1 witness: the success branch of `parseSheetIdFromUrl_correct` at a
concrete Google Sheets URL whose pattern occurrence starts at position 23. -/
theorem parseSheetIdFromUrl_correct_witness :
    parseSheetIdFromUrl "https://docs.google.com/spreadsheets/d/1AbCdEfG/edit"
      = Except.ok (String.mk (extractAt
          ("https://docs.google.com/spreadsheets/d/1AbCdEfG/edit").toList
          23)) :=
  (parseSheetIdFromUrl_correct
    "https://docs.google.com/spreadsheets/d/1AbCdEfG/edit").1
    23 (by decide) (by decide)

/-! ### Lemmas about the cell-address grammar -/

/-- Splitting at a decomposition whose left part all satisfies `p` and whose
first right element fails `p`: `takeWhile`/`dropWhile` recover the parts. -/
theorem span_of_decomp (p : Char → Bool) :
    ∀ (a : List Char) (d : Char) (ds : List Char),
    (∀ c ∈ a, p c = true) → p d = false →
    (a ++ d :: ds).takeWhile p = a ∧ (a ++ d :: ds).dropWhile p = d :: ds
  | [], d, ds, _, hd => by
    simp [List.takeWhile_cons, List.dropWhile_cons, hd]
  | x :: a, d, ds, ha, hd => by
    have hx : p x = true := ha x (List.mem_cons_self x a)
    have ih := span_of_decomp p a d ds
      (fun c hc => ha c (List.mem_cons_of_mem x hc)) hd
    simp [List.takeWhile_cons, List.dropWhile_cons, hx, ih.1, ih.2]

/-- A `1`–`9` digit is not an uppercase letter. -/
theorem isDigit19_not_upper (c : Char) (h : isDigit19 c = true) :
    isUpperAZ c = false := by
  simp only [isDigit19, Bool.and_eq_true, decide_eq_true_eq] at h
  simp only [isUpperAZ, Bool.and_eq_false_iff, decide_eq_false_iff_not]
  omega

/-- C7.  The cell-address predicate accepts a string exactly when it is one
or more uppercase letters, then one nonzero decimal digit, then zero or more
decimal digits; it accepts `A1`, `C9`, `AA10` and rejects `a1`, `A0`, `A01`,
`1A` and the empty string.  (The predicate is a total Lean function on
strings, matching the pure, total regex test of the source.) -/
theorem isValidCellAddress_correct :
    (∀ s : String, isValidCellAddress s = true ↔
      ∃ a d ds, s.toList = a ++ d :: ds ∧ a ≠ [] ∧
        (∀ c ∈ a, isUpperAZ c = true) ∧ isDigit19 d = true ∧
        (∀ c ∈ ds, isDigit09 c = true))
    ∧ isValidCellAddress "A1" = true ∧ isValidCellAddress "C9" = true
    ∧ isValidCellAddress "AA10" = true ∧ isValidCellAddress "a1" = false
    ∧ isValidCellAddress "A0" = false ∧ isValidCellAddress "A01" = false
    ∧ isValidCellAddress "1A" = false ∧ isValidCellAddress "" = false := by
  refine ⟨?_, by decide, by decide, by decide, by decide, by decide,
    by decide, by decide, by decide⟩
  intro s
  constructor
  · intro h
    unfold isValidCellAddress at h
    cases htw : s.toList.takeWhile isUpperAZ with
    | nil => rw [htw] at h; simp at h
    | cons x xs =>
      cases hdw : s.toList.dropWhile isUpperAZ with
      | nil => rw [htw, hdw] at h; simp at h
      | cons d ds =>
        rw [htw, hdw] at h
        simp only [Bool.and_eq_true, List.all_eq_true] at h
        refine ⟨x :: xs, d, ds, ?_, by simp, ?_, h.1, fun c hc => h.2 c hc⟩
        · rw [← htw, ← hdw, List.takeWhile_append_dropWhile]
        · intro c hc
          rw [← htw] at hc
          exact List.mem_takeWhile_imp hc
  · rintro ⟨a, d, ds, hs, ha, hall, hd, hds⟩
    obtain ⟨htw, hdw⟩ :=
      span_of_decomp isUpperAZ a d ds hall (isDigit19_not_upper d hd)
    unfold isValidCellAddress
    rw [hs, htw, hdw]
    cases a with
    | nil => exact absurd rfl ha
    | cons x xs =>
      simp only [Bool.and_eq_true, List.all_eq_true]
      exact ⟨hd, hds⟩

/-- C7 witness: the grammar characterization instantiated at `"B2"`. -/
theorem isValidCellAddress_correct_witness : isValidCellAddress "B2" = true :=
  (isValidCellAddress_correct.1 "B2").mpr
    ⟨['B'], '2', [], by decide, by decide, by decide, by decide, by decide⟩

/-! ### Lemmas about the discovery scan -/

/-- The scan keeps exactly the valid rows, in order, and maps each to its
record: the loop is a filter-then-map. -/
theorem scanRows_eq_filter : ∀ rows : List RawRow,
    scanRows rows = (rows.filter validRowB).map recordOfValidRow
  | [] => rfl
  | row :: rest => by
    have ih := scanRows_eq_filter rest
    by_cases h0 : cell row 0 = ""
    · simp [scanRows, validRowB, h0, ih, List.filter_cons]
    · by_cases h2 : cell row 2 = ""
      · simp [scanRows, validRowB, h0, h2, ih, List.filter_cons]
      · by_cases h12 : cell row 12 = ""
        · simp [scanRows, validRowB, h0, h2, h12, ih, List.filter_cons]
        · cases hp : parseSheetIdFromUrl (cell row 2) with
          | error m =>
            have hpo : parseOk (cell row 2) = false := by
              simp [parseOk, hp]
            simp [scanRows, validRowB, h0, h2, h12, hp, hpo, ih,
              List.filter_cons]
          | ok idv =>
            have hpo : parseOk (cell row 2) = true := by
              simp [parseOk, hp]
            have hrec : recordOfValidRow row =
                { name := jsTrim (cell row 0)
                  sheetId := idv
                  sheetName := "Sheet1"
                  webhookUrl := jsTrim (cell row 12)
                  currentSuppliesCell := "C9"
                  dailyConsumptionCell := "C11" } := by
              simp [recordOfValidRow, extractId, hp]
            simp [scanRows, validRowB, h0, h2, h12, hp, hpo, ih,
              List.filter_cons, hrec]

/-- C2.  For a row set in which every row has a nonempty name (position 0),
a nonempty webhook URL (position 12) and a sheet URL (position 2) from which
extraction succeeds, the scan returns one record per row, in order, each
with the trimmed name, the extracted id, the trimmed webhook URL, sheet name
`"Sheet1"` and cells `"C9"`/`"C11"` (the fields of `recordOfValidRow`). -/
theorem discoverRecords_all_valid (rows : List RawRow)
    (h : ∀ row ∈ rows, cell row 0 ≠ "" ∧ cell row 12 ≠ "" ∧
      parseOk (cell row 2) = true) :
    scanRows rows = rows.map recordOfValidRow := by
  have hall : ∀ row ∈ rows, validRowB row = true := by
    intro row hrow
    obtain ⟨h0, h12, hp⟩ := h row hrow
    have h2 : cell row 2 ≠ "" := by
      intro he
      rw [he] at hp
      exact absurd hp (by decide)
    simp [validRowB, h0, h2, h12, hp]
  rw [scanRows_eq_filter, List.filter_eq_self.mpr hall]

/-- C2 witness: the all-valid scan at two concrete database rows. -/
theorem discoverRecords_all_valid_witness :
    scanRows [validRow1, validRow2] =
      [validRow1, validRow2].map recordOfValidRow :=
  discoverRecords_all_valid [validRow1, validRow2] (by decide)

/-- C3.  For a row set containing at least one valid row, with invalid rows
(incomplete or with unparseable URLs) interspersed anywhere, the scan raises
no error (it is a total function into a record list) and returns exactly the
valid rows' records in their relative order. -/
theorem discoverRecords_tolerant (rows : List RawRow)
    (h : ∃ row ∈ rows, validRowB row = true) :
    scanRows rows = (rows.filter validRowB).map recordOfValidRow :=
  scanRows_eq_filter rows

/-- C3 witness: a valid row, then an incomplete row, then a valid row. -/
theorem discoverRecords_tolerant_witness :
    scanRows [validRow1, [""], validRow2] =
      ([validRow1, [""], validRow2].filter validRowB).map recordOfValidRow :=
  discoverRecords_tolerant [validRow1, [""], validRow2] (by decide)

/-! ### The whitespace-only tolerance claim -/

/-- C4 counterexample.  A row whose name cell is the single space `" "`
(whitespace-only, hence JS-truthy) is not skipped: the scan builds a record
for it — with the name trimmed to the empty string — and the full load of
that row set then fails fatally in validation with `missing required field:
name`, contradicting "the row contributes no record and does not cause any
fatal error for the run". -/
theorem whitespaceName_not_skipped :
    scanRows [wsNameRow] =
      [{ name := ""
         sheetId := "abc"
         sheetName := "Sheet1"
         webhookUrl := "http://w.example"
         currentSuppliesCell := "C9"
         dailyConsumptionCell := "C11" }]
    ∧ loadConfigFromRows (some [wsNameRow]) =
        Except.error (ConfigError.missingField 0 "name") :=
  ⟨by decide, by decide⟩

/-- C4 as amended.  For every row whose name, sheet URL or webhook URL cell
is empty or absent — and also when the sheet URL cell is whitespace-only, in
which case identifier extraction fails — the scan skips the row: it
contributes no record and the scan continues with the remaining rows.
(Whitespace-only name or webhook cells are JS-truthy and are not skipped.) -/
theorem emptyField_row_skipped (row : RawRow) (rest : List RawRow)
    (h : cell row 0 = "" ∨ cell row 2 = "" ∨ cell row 12 = ""
      ∨ ∀ c ∈ (cell row 2).toList, isJsWhitespace c = true) :
    scanRows (row :: rest) = scanRows rest := by
  rcases h with h | h | h | h
  · simp [scanRows, h]
  · simp [scanRows, h]
  · simp [scanRows, h]
  · by_cases h2 : cell row 2 = ""
    · simp [scanRows, h2]
    · have hp : parseSheetIdFromUrl (cell row 2) =
          Except.error ("Invalid Google Sheets URL: " ++ cell row 2) := by
        unfold parseSheetIdFromUrl
        rw [findMatch_whitespace_none (cell row 2).toList h]
      by_cases h0 : cell row 0 = ""
      · simp [scanRows, h0]
      · by_cases h12 : cell row 12 = ""
        · simp [scanRows, h12]
        · simp [scanRows, h0, h2, h12, hp]

/-- C4 witness: a row with an empty name cell is skipped by the scan. -/
theorem emptyField_row_skipped_witness :
    scanRows [["", "u", "v"]] = scanRows [] :=
  emptyField_row_skipped ["", "u", "v"] [] (Or.inl (by decide))

/-! ### The two discovery failure kinds -/

/-- C5.  Discovery fails with the `emptySource` kind when the fetched grid
is absent or empty, and with the distinct `noValidRecords` kind when the
grid is nonempty but no row survives the scan; the two kinds are different
constructors and carry different messages, so the caller can tell them
apart. -/
theorem discovery_error_kinds :
    loadConfigFromRows none = Except.error ConfigError.emptySource
    ∧ loadConfigFromRows (some []) = Except.error ConfigError.emptySource
    ∧ (∀ rs : List RawRow, rs ≠ [] → scanRows rs = [] →
        loadConfigFromRows (some rs) = Except.error ConfigError.noValidRecords)
    ∧ ConfigError.emptySource ≠ ConfigError.noValidRecords
    ∧ ConfigError.emptySource.message ≠ ConfigError.noValidRecords.message := by
  refine ⟨rfl, rfl, ?_, by decide, by decide⟩
  intro rs h1 h2
  have hlen : ¬rs.length = 0 := by simpa [List.length_eq_zero] using h1
  simp [loadConfigFromRows, hlen, h2]

/-- C5 witness: a nonempty grid whose only row is unusable. -/
theorem discovery_error_kinds_witness :
    loadConfigFromRows (some [[""]]) =
      Except.error ConfigError.noValidRecords :=
  discovery_error_kinds.2.2.1 [[""]] (by decide) (by decide)

/-! ### Safety of the fixed-position reads -/

/-- Reading any position at or past the end of a row yields the absent
value. -/
theorem getD_absent : ∀ (l : List String) (i : Nat),
    l.length ≤ i → l.getD i "" = ""
  | [], i, _ => by cases i <;> rfl
  | _ :: l, 0, h => absurd h (by simp)
  | _ :: l, i + 1, h => getD_absent l i (by simpa using h)

/-- C9.  A row of any length is read safely: every out-of-range position
(in particular position 12 of a row with at most 12 cells) reads as the
absent value, the row is then treated as missing required fields and
skipped, and the scan continues with the remaining rows. -/
theorem short_rows_skipped (row : RawRow) (rest : List RawRow)
    (h : row.length ≤ 12) :
    (∀ i, row.length ≤ i → cell row i = "")
    ∧ scanRows (row :: rest) = scanRows rest := by
  refine ⟨fun i hi => getD_absent row i hi, ?_⟩
  have h12 : cell row 12 = "" := getD_absent row 12 h
  simp [scanRows, h12]

/-- C9 witness: a 3-cell row (name and valid URL present, webhook column
absent) is skipped without any out-of-range failure. -/
theorem short_rows_skipped_witness :
    scanRows [["Saraian 1st Army", "",
      "https://docs.google.com/spreadsheets/d/1AbCdEfG/edit"]] =
      scanRows [] :=
  (short_rows_skipped ["Saraian 1st Army", "",
    "https://docs.google.com/spreadsheets/d/1AbCdEfG/edit"] [] (by decide)).2

/-! ### Lemmas about the validator -/

/-- The first violation of a concatenated schedule is the first violation of
the first part, if any, else that of the second. -/
theorem firstViolation_append (a b : List (Bool × ConfigError)) :
    firstViolation (a ++ b) =
      match firstViolation a with
      | some e => some e
      | none => firstViolation b := by
  induction a with
  | nil => rfl
  | cons p rest ih =>
    obtain ⟨ok, e⟩ := p
    cases ok
    · simp [firstViolation]
    · simp [firstViolation, ih]

/-- A schedule has no violation exactly when every check in it passes. -/
theorem firstViolation_none_iff (l : List (Bool × ConfigError)) :
    firstViolation l = none ↔ ∀ p ∈ l, p.1 = true := by
  induction l with
  | nil => simp [firstViolation]
  | cons p rest ih =>
    obtain ⟨ok, e⟩ := p
    cases ok <;> simp [firstViolation, ih]

/-- The body of the `forEach` makes exactly the checks of
`recordCheckList`, in that order, and throws the first failure. -/
theorem checkRecord_eq (i : Nat) (r : ConfigRecord) :
    checkRecord i r =
      (match firstViolation (recordCheckList i r) with
       | some e => Except.error e
       | none => Except.ok ()) := by
  cases h1 : r.name == "" <;> cases h2 : r.sheetId == "" <;>
    cases h3 : r.webhookUrl == "" <;>
    cases h4 : r.currentSuppliesCell == "" <;>
    cases h5 : r.dailyConsumptionCell == "" <;>
    cases h6 : jsUrlParses r.webhookUrl <;>
    cases h7 : isValidCellAddress r.currentSuppliesCell <;>
    cases h8 : isValidCellAddress r.dailyConsumptionCell <;>
    simp [checkRecord, recordCheckList, firstViolation,
      h1, h2, h3, h4, h5, h6, h7, h8]

/-- The indexed walk is the first violation of the flat schedule. -/
theorem validateLoop_eq (rs : List ConfigRecord) : ∀ i,
    validateLoop i rs =
      (match firstViolation (checksFor (withIdx i rs)) with
       | some e => Except.error e
       | none => Except.ok ()) := by
  induction rs with
  | nil => intro i; rfl
  | cons r rest ih =>
    intro i
    rw [show withIdx i (r :: rest) = (i, r) :: withIdx (i + 1) rest from rfl]
    rw [show checksFor ((i, r) :: withIdx (i + 1) rest) =
      recordCheckList i r ++ checksFor (withIdx (i + 1) rest) from rfl]
    rw [firstViolation_append]
    show (match checkRecord i r with
          | Except.error e => Except.error e
          | Except.ok _ => validateLoop (i + 1) rest) = _
    rw [checkRecord_eq i r]
    cases hf : firstViolation (recordCheckList i r) with
    | some e => rfl
    | none => simpa using ih (i + 1)

/-- All checks of one record's schedule pass exactly when the record
passes all its checks. -/
theorem recordCheckList_pass_iff (i : Nat) (r : ConfigRecord) :
    (∀ p ∈ recordCheckList i r, p.1 = true) ↔ recordPassesB r = true := by
  simp only [recordCheckList, List.forall_mem_cons, List.forall_mem_nil,
    and_true, recordPassesB, Bool.and_eq_true]
  tauto

/-- All checks of the flat schedule pass exactly when every record passes
all its checks. -/
theorem checksFor_pass_iff (rs : List ConfigRecord) : ∀ i,
    (∀ p ∈ checksFor (withIdx i rs), p.1 = true) ↔
      ∀ r ∈ rs, recordPassesB r = true := by
  induction rs with
  | nil => intro i; simp [withIdx, checksFor]
  | cons r rest ih =>
    intro i
    rw [show checksFor (withIdx i (r :: rest)) =
      recordCheckList i r ++ checksFor (withIdx (i + 1) rest) from rfl]
    rw [List.forall_mem_append, recordCheckList_pass_iff i r, ih (i + 1),
      List.forall_mem_cons]

/-- C6.  The validator equals the spec-side first-violation schedule: it
first rejects an empty record set, then walks the records in index order
making, per record, the five required-field checks in the order of the
source's `requiredFields` array, then the webhook-URL syntax check, then
the two cell-address checks, failing on the first violation; and it accepts
(returns without error) exactly when the set is nonempty and every record
passes every check — no per-record tolerance. -/
theorem validateConfig_fail_fast (cfg : List ConfigRecord) :
    validateConfig cfg = specValidateOutcome cfg
    ∧ (validateConfig cfg = Except.ok () ↔
        cfg ≠ [] ∧ ∀ r ∈ cfg, recordPassesB r = true) := by
  by_cases hc : cfg = []
  · subst hc
    refine ⟨rfl, ?_⟩
    simp [validateConfig]
  · constructor
    · show validateConfig cfg = specValidateOutcome cfg
      unfold validateConfig specValidateOutcome
      rw [if_neg hc, if_neg hc]
      exact validateLoop_eq cfg 0
    · unfold validateConfig
      rw [if_neg hc, validateLoop_eq cfg 0]
      cases hf : firstViolation (checksFor (withIdx 0 cfg)) with
      | some e =>
        simp only []
        constructor
        · intro hcontra; cases hcontra
        · rintro ⟨-, hall⟩
          have : firstViolation (checksFor (withIdx 0 cfg)) = none :=
            (firstViolation_none_iff _).mpr
              ((checksFor_pass_iff cfg 0).mpr hall)
          rw [hf] at this
          cases this
      | none =>
        simp only []
        constructor
        · intro _
          exact ⟨hc, (checksFor_pass_iff cfg 0).mp
            ((firstViolation_none_iff _).mp hf)⟩
        · intro _
          trivial

/-- C6 witness: the validator accepts a singleton well-formed record set. -/
theorem validateConfig_fail_fast_witness :
    validateConfig [sampleRecord] = Except.ok () :=
  (validateConfig_fail_fast [sampleRecord]).2.mpr ⟨by decide, by decide⟩

/-! ### The validator only reads its input -/

/-- The state-threaded walk returns the record array unchanged and computes
the same outcome as the plain walk. -/
theorem validateLoopSt_eq (rs : List ConfigRecord) : ∀ i,
    validateLoopSt i rs = (validateLoop i rs, rs) := by
  induction rs with
  | nil => intro i; rfl
  | cons r rest ih =>
    intro i
    show (match checkRecord i r with
          | Except.error e => (Except.error e, r :: rest)
          | Except.ok _ =>
            let p := validateLoopSt (i + 1) rest
            (p.1, r :: p.2)) = _
    cases hcheck : checkRecord i r with
    | error e =>
      show (Except.error e, r :: rest) = (validateLoop i (r :: rest), r :: rest)
      rw [show validateLoop i (r :: rest) =
        (match checkRecord i r with
         | Except.error e => Except.error e
         | Except.ok _ => validateLoop (i + 1) rest) from rfl, hcheck]
    | ok u =>
      cases u
      show ((validateLoopSt (i + 1) rest).1,
        r :: (validateLoopSt (i + 1) rest).2) = _
      rw [ih (i + 1)]
      rw [show validateLoop i (r :: rest) =
        (match checkRecord i r with
         | Except.error e => Except.error e
         | Except.ok _ => validateLoop (i + 1) rest) from rfl, hcheck]

/-- C10.  The validator only reads its input: with the record array threaded
as explicit state, whether the outcome is acceptance or an error the array
returned is exactly the array passed in, and the outcome agrees with
`validateConfig` — validation never mutates or normalizes the records. -/
theorem validateConfig_reads_only (cfg : List ConfigRecord) :
    (validateConfigSt cfg).2 = cfg
    ∧ (validateConfigSt cfg).1 = validateConfig cfg := by
  by_cases hc : cfg = [] <;>
    simp [validateConfigSt, validateConfig, hc, validateLoopSt_eq cfg 0]

/-- C10 witness: the threaded validator returns a concrete record set
unchanged. -/
theorem validateConfig_reads_only_witness :
    (validateConfigSt [sampleRecord]).2 = [sampleRecord] :=
  (validateConfig_reads_only [sampleRecord]).1

/-! ### The fatal-error envelope -/

/-- C8.  Every fatal failure of the pipeline — missing environment value,
empty source, no valid records, or any validation failure — surfaces to the
caller wrapped as `Configuration loading failed: <cause>`, with the inner
cause's message preserved verbatim after the prefix. -/
theorem loadConfig_wraps_errors (env : Option String)
    (rows : Option (List RawRow)) (e : ConfigError)
    (h : loadConfigInner env rows = Except.error e) :
    loadConfig env rows =
      Except.error ("Configuration loading failed: "
        ++ ConfigError.message e) := by
  unfold loadConfig
  rw [h]

/-- C8 witness: the empty environment value (JS-falsy) surfaces as the
wrapped missing-environment error. -/
theorem loadConfig_wraps_errors_witness :
    loadConfig (some "") none =
      Except.error ("Configuration loading failed: "
        ++ ConfigError.message ConfigError.missingEnv) :=
  loadConfig_wraps_errors (some "") none ConfigError.missingEnv rfl
